import Mathlib

/-!
Verification of the chart-decoding and time-series aggregation pipeline of
`gae_dashboard/dashboard_report.py`.

The Python source is shallowly embedded below: machine floats are modelled
as exact rationals (`ℚ`), UNIX timestamps as integers or rationals,
Python dictionaries as insertion-ordered association lists, and Python
exceptions (`assert`, `ValueError`, `KeyError`, `IndexError`) as
`Except String` results.  Each definition mirrors one function of the
source file and keeps its name where Lean allows.
-/

attribute [local semireducible] Rat.mul Rat.inv Rat.add Rat.sub

instance {ε α : Type} [DecidableEq ε] [DecidableEq α] : DecidableEq (Except ε α)
  | .ok a, .ok b =>
    if h : a = b then .isTrue (by rw [h]) else .isFalse (fun c => by cases c; exact h rfl)
  | .ok _, .error _ => .isFalse (fun c => by cases c)
  | .error _, .ok _ => .isFalse (fun c => by cases c)
  | .error e, .error f =>
    if h : e = f then .isTrue (by rw [h]) else .isFalse (fun c => by cases c; exact h rfl)

instance (priority := 2000) : DecidableEq (List (String × List (String × List (ℤ × ℚ)))) :=
  instDecidableEqList

namespace DashboardReport

/-- Python `int()` applied to a rational: truncation toward zero. -/
def pyint (q : ℚ) : ℤ := if 0 ≤ q then ⌊q⌋ else ⌈q⌉

/-- Auxiliary accumulator for `splitOnChar`. -/
def splitOnCharAux (sep : Char) : List Char → List Char → List String
  | [], acc => [String.mk acc.reverse]
  | c :: cs, acc =>
    if c = sep then String.mk acc.reverse :: splitOnCharAux sep cs []
    else splitOnCharAux sep cs (c :: acc)

/-- Python `s.split(sep)` for a single-character separator: `"a|b".split('|')`
gives `["a", "b"]`, `"".split('|')` gives `[""]`. -/
def splitOnChar (sep : Char) (s : String) : List String :=
  splitOnCharAux sep s.data []

/-- Python `label.endswith(':')`. -/
def endsColon (s : String) : Bool := s.data.getLast? == some ':'

/-- Python `int(label[:1])` restricted to success on a single decimal digit:
`some d` when the first character is the digit `d`, `none` (a `ValueError`)
when the string is empty or starts with a non-digit. -/
def headDigitVal (s : String) : Option ℕ :=
  match s.data with
  | c :: _ => if c.isDigit then some (c.toNat - 48) else none
  | [] => none

/-- Python `s.startswith('e:')`. -/
def startsWithE (s : String) : Bool :=
  match s.data with
  | 'e' :: ':' :: _ => true
  | _ => false

/-- Digit-string accumulator for `parse_float`. -/
def digitsValAux : List Char → ℕ → Option ℕ
  | [], acc => some acc
  | c :: cs, acc =>
    if c.isDigit then digitsValAux cs (acc * 10 + (c.toNat - 48)) else none

/-- Python `float(s)` on the plain decimal literals that occur as chart axis
labels (optional sign, integer digits, optional fractional digits; no
exponent form, which never appears in the dashboard's axis labels).  The
float is modelled as the exact rational it denotes. -/
def parse_float (s : String) : Except String ℚ :=
  let (sign, cs) : ℚ × List Char :=
    match s.data with
    | '-' :: r => (-1, r)
    | '+' :: r => (1, r)
    | l => (1, l)
  let intPart := cs.takeWhile (fun c => c ≠ '.')
  let rest := cs.dropWhile (fun c => c ≠ '.')
  match rest with
  | [] =>
    match digitsValAux intPart 0 with
    | some v => if intPart.isEmpty then .error "ValueError: float" else .ok (sign * v)
    | none => .error "ValueError: float"
  | '.' :: frac =>
    if intPart.isEmpty && frac.isEmpty then .error "ValueError: float"
    else
      match digitsValAux intPart 0, digitsValAux frac 0 with
      | some iv, some fv => .ok (sign * ((iv : ℚ) + (fv : ℚ) / 10 ^ frac.length))
      | _, _ => .error "ValueError: float"
  | _ => .error "ValueError: float"

/-- Fuel-driven base-10 logarithm on naturals (structural recursion so that
the kernel can evaluate it): `log10fuel fuel n` is `⌊log₁₀ n⌋` whenever
`n ≤ fuel` and `1 ≤ n`. -/
def log10fuel : ℕ → ℕ → ℕ
  | 0, _ => 0
  | fuel + 1, n => if n < 10 then 0 else log10fuel fuel (n / 10) + 1

/-- `⌊log₁₀ n⌋` for `n ≥ 1`. -/
def natLog10 (n : ℕ) : ℕ := log10fuel n n

/-- For a positive rational `q`, the unique `e : ℤ` with `10^e ≤ q < 10^(e+1)`:
the decimal exponent produced by Python's `'%e'` formatting. -/
def qexp10 (q : ℚ) : ℤ :=
  let d : ℤ := (natLog10 q.num.toNat : ℤ) - (natLog10 q.den : ℤ)
  if (10 : ℚ) ^ d ≤ q then d else d - 1

/-- Core of `'%.*e' % (n - 1, x)` followed by `float()`, for positive `x`:
round `x` to `n` significant decimal digits (ties rounded half-up; the
binary float formatting is modelled at the level of exact decimals). -/
def round_sig_pos (x : ℚ) (n : ℕ) : ℚ :=
  let s : ℤ := qexp10 x - n + 1
  ((round (x / 10 ^ s) : ℤ) : ℚ) * 10 ^ s

/-- `float('%.*e' % (n - 1, x))` for any `x`: zero maps to zero and negative
values are formatted by magnitude with a sign. -/
def round_sig_core (x : ℚ) (n : ℕ) : ℚ :=
  if x = 0 then 0
  else if 0 < x then round_sig_pos x n
  else - round_sig_pos (-x) n

/-- `round_to_n_significant_digits(x, n)` from the source: raises
`ValueError` for `n < 1`, otherwise returns `float('%.*e' % (n - 1, x))`. -/
def round_to_n_significant_digits (x : ℚ) (n : ℤ) : Except String ℚ :=
  if n < 1 then .error "ValueError: Number of significant digits must be >= 1"
  else .ok (round_sig_core x n.toNat)

/-- The x-token decoding of `unpack_chart_data`:
`int(float(x) / 4095 * time_delta_seconds)`. -/
def decode_x (t : ℕ) (w : ℚ) : ℤ := pyint ((t : ℚ) / 4095 * w)

/-- The y-token decoding of `unpack_chart_data`:
`round_to_n_significant_digits(float(y) / 4095 * value_max, 4)` (which can
never raise since `4 ≥ 1`). -/
def decode_y (t : ℕ) (m : ℚ) : ℚ := round_sig_core ((t : ℚ) / 4095 * m) 4

/-- A value of `_label_to_field_map`: either the field name for a chart's
lone series, or a mapping from data labels to field names. -/
inductive FieldEntry : Type where
  | single (name : String)
  | multi (m : List (String × String))
deriving DecidableEq

/-- Association-list lookup, modelling Python `d[k]` returning `None`-free
`Option` (a miss is a `KeyError` at the use site). -/
def alistGet {α β : Type} [DecidableEq α] : List (α × β) → α → Option β
  | [], _ => none
  | (k, v) :: rest, key => if k = key then some v else alistGet rest key

/-- Python `d[k] = v` on an insertion-ordered dictionary: overwrite in place
when the key exists, append otherwise. -/
def alistSet {α β : Type} [DecidableEq α] : List (α × β) → α → β → List (α × β)
  | [], key, v => [(key, v)]
  | (k, w) :: rest, key, v =>
    if k = key then (key, v) :: rest else (k, w) :: alistSet rest key v

/-- `_label_to_field_map` from the source, as an insertion-ordered list. -/
def labelToFieldMap : List (String × FieldEntry) :=
  [("Summary", .multi
      [("Client (4xx)", "client_errors_per_second"),
       ("Server (5xx)", "server_errors_per_second"),
       ("Total Requests", "requests_per_second")]),
   ("Requests by Type/Second", .multi
      [("Static Requests", "static_requests_per_second"),
       ("Dynamic Requests", "dynamic_requests_per_second"),
       ("Cached Requests", "cached_requests_per_second"),
       ("PageSpeed Requests", "pagespeed_requests_per_second")]),
   ("Latency", .single "milliseconds_per_dynamic_request"),
   ("Loading Latency", .single "milliseconds_per_loading_request"),
   ("Error Details", .multi
      [("Client (4xx)", "client_errors_per_second"),
       ("Server (5xx)", "server_errors_per_second"),
       ("Quota Denials", "quota_denials_per_second"),
       ("DoS API Denials", "dos_api_denials_per_second")]),
   ("Traffic (Bytes/Second)", .multi
      [("Sent", "bytes_sent_per_second"),
       ("Received", "bytes_received_per_second")]),
   ("Utilization", .multi
      [("Total CPU", "total_cpu_seconds_used_per_second"),
       ("API Calls CPU", "api_cpu_seconds_used_per_second")]),
   ("Milliseconds Used/Second", .single "milliseconds_used_per_second"),
   ("Instances", .multi
      [("Total", "total_instance_count"),
       ("Active", "active_instance_count"),
       ("Billed", "billed_instance_count")]),
   ("Memory Usage (MB)", .single "memory_usage_mb"),
   ("Memcache Operations/Second", .single "memcache_ops_per_second"),
   ("Memcache Compute Units/Second", .single "memcache_compute_units_per_second"),
   ("Memcache Traffic (Bytes/Second)", .multi
      [("Sent", "memcache_bytes_sent_per_second"),
       ("Received", "memcache_bytes_received_per_second"),
       ("Total", "memcache_total_bytes_per_second")]),
   ("Memcache Total Cache Size (MB)", .single "memcache_size_mb")]

/-- `_time_windows` from the source: picker text and duration in hours. -/
def timeWindows : List (String × ℚ) :=
  [("30 mins", 1 / 2), ("3 hrs", 3), ("6 hrs", 6), ("12 hrs", 12),
   ("24 hrs", 24), ("2 days", 2 * 24), ("4 days", 4 * 24),
   ("7 days", 7 * 24), ("14 days", 14 * 24), ("30 days", 30 * 24)]

/-- `num_charts()` from the source. -/
def num_charts : ℕ := labelToFieldMap.length

/-- `lookup_field_name(chart_label, series_label)` from the source: a string
entry is returned as is (the series label is ignored), a dictionary entry is
indexed by the series label; missing keys are `KeyError`s.  A `None` series
label used as a dictionary key misses every string key. -/
def lookup_field_name (chart_label : String) (series_label : Option String) :
    Except String String :=
  match alistGet labelToFieldMap chart_label with
  | none => .error "KeyError: chart label"
  | some (.single name) => .ok name
  | some (.multi m) =>
    match series_label with
    | none => .error "KeyError: None"
    | some sl =>
      match alistGet m sl with
      | some name => .ok name
      | none => .error "KeyError: series label"

/-- `axis_labels[axis_index].append(label)`. -/
def appendAt : List (List String) → ℕ → String → List (List String)
  | [], _, _ => []
  | x :: xs, 0, l => (x ++ [l]) :: xs
  | x :: xs, n + 1, l => x :: appendAt xs n l

/-- The label loop of `get_axis_labels`: for each `|`-separated segment, a
segment ending in `:` switches the current axis to `int(segment[:1])`
(asserting it is in range), any other segment is appended to the current
axis's label list. -/
def axisLabelsLoop (numAxes : ℕ) :
    List String → List (List String) → ℕ → Except String (List (List String))
  | [], acc, _ => .ok acc
  | seg :: rest, acc, idx =>
    if endsColon seg then
      match headDigitVal seg with
      | none => .error "ValueError: invalid literal for int()"
      | some d =>
        if d < numAxes then axisLabelsLoop numAxes rest acc d
        else .error "AssertionError: axis index out of range"
    else axisLabelsLoop numAxes rest (appendAt acc idx seg) idx

/-- `get_axis_labels(chart)` from the source, on the chart's `chxt` and
`chxl` parameters: returns the mapping from axis name to its ordered list
of labels. -/
def get_axis_labels (chxt chxl : String) : Except String (List (String × List String)) :=
  let axes := splitOnChar ',' chxt
  match axisLabelsLoop axes.length (splitOnChar '|' chxl) (axes.map fun _ => []) 0 with
  | .error e => .error e
  | .ok labs => .ok (axes.zip labs)

/-- The parsed chart parameters `unpack_chart_data` reads off the chart URL.
`GChartWrapper.GChart.fromurl` and `chart.getdata()` are an external
library: `data` holds the already token-decoded `chd` data, a list of
alternating x-token and y-token sequences, each token in `[0, 4095]`. -/
structure GChart : Type where
  chd : String
  chxt : String
  chxl : String
  chdl : Option String
  data : List (List ℕ)
deriving DecidableEq

/-- Consecutive pairs of the `getdata()` list:
`[xs1, ys1, xs2, ys2, ...] → [(xs1, ys1), (xs2, ys2), ...]`. -/
def pairUp {α : Type} : List α → List (α × α)
  | a :: b :: rest => (a, b) :: pairUp rest
  | _ => []

/-- `unpack_chart_data(url, time_delta_seconds)` from the source: assert the
extended data format, read the y-axis maximum off the last y-axis label,
assert `chxt == 'x,y'`, split the series labels, assert there are twice as
many token sequences as series labels, and decode every token pair. -/
def unpack_chart_data (chart : GChart) (time_delta_seconds : ℚ) :
    Except String (List (Option String × List (ℤ × ℚ))) :=
  if startsWithE chart.chd = false then .error "AssertionError: expected extended format"
  else
    match get_axis_labels chart.chxt chart.chxl with
    | .error e => .error e
    | .ok axis_labels =>
      match alistGet axis_labels "y" with
      | none => .error "KeyError: y"
      | some ylabels =>
        match ylabels.getLast? with
        | none => .error "IndexError: list index out of range"
        | some mlabel =>
          match parse_float mlabel with
          | .error e => .error e
          | .ok value_max =>
            if chart.chxt ≠ "x,y" then .error "AssertionError: chxt"
            else
              let series_labels : List (Option String) :=
                match chart.chdl with
                | some s => (splitOnChar '|' s).map some
                | none => [none]
              if 2 * series_labels.length ≠ chart.data.length then
                .error "AssertionError: series label count"
              else
                .ok (series_labels.zip ((pairUp chart.data).map fun p =>
                  (p.1.map fun t => decode_x t time_delta_seconds).zip
                    (p.2.map fun t => decode_y t value_max)))

/-- One iteration of the record-building loop in `aggregate_series_by_time`:
for the given x value, walk the named series in order, assert that at most
one data point of each series matches, and collect the matches as record
fields in iteration order. -/
def build_record (x : ℤ) : List (String × List (ℤ × ℚ)) → Except String (List (String × ℚ))
  | [] => .ok []
  | (name, xy_pairs) :: rest =>
    let matched_pairs := xy_pairs.filter fun p => p.1 = x
    if matched_pairs.length ≤ 1 then
      match matched_pairs with
      | [] => build_record x rest
      | (_, y) :: _ =>
        match build_record x rest with
        | .error e => .error e
        | .ok record => .ok ((name, y) :: record)
    else .error "AssertionError: duplicate data points"

/-- The outer loop of `aggregate_series_by_time` over the sorted x values. -/
def aggregateLoop (named_series : List (String × List (ℤ × ℚ))) :
    List ℤ → Except String (List (ℤ × List (String × ℚ)))
  | [] => .ok []
  | x :: xs =>
    match build_record x named_series with
    | .error e => .error e
    | .ok record =>
      match aggregateLoop named_series xs with
      | .error e => .error e
      | .ok rest => .ok ((x, record) :: rest)

/-- The distinct x values across all series, ascending: `sorted(x_values)`
for the set-union `x_values` of the source. -/
def sorted_x_values (named_series : List (String × List (ℤ × ℚ))) : List ℤ :=
  (((named_series.map fun p => p.2.map Prod.fst).flatten).dedup).insertionSort (· ≤ ·)

/-- `aggregate_series_by_time(named_series)` from the source, with the
generator materialised as a list. -/
def aggregate_series_by_time (named_series : List (String × List (ℤ × ℚ))) :
    Except String (List (ℤ × List (String × ℚ))) :=
  aggregateLoop named_series (sorted_x_values named_series)

/-- One element of the `input_json` batch: a chart number (index into
`labelToFieldMap`), the owning module, a time-window index (into
`timeWindows`) and the chart parameters fetched from the chart URL. -/
structure ChartJsonInput : Type where
  chart_num : ℕ
  module : String
  time_window : ℕ
  chart : GChart
deriving DecidableEq

/-- An output record: the absolute timestamp stored under `utc_datetime`
and the field-name-to-value mapping. -/
structure Record : Type where
  utc_time : ℚ
  fields : List (String × ℚ)
deriving DecidableEq

/-- Per-module named series: `named_series_by_module` in the source. -/
abbrev NSBM : Type := List (String × List (String × List (ℤ × ℚ)))

/-- `named_series_by_module.setdefault(module, {})` followed by
`named_series_by_module[module][field_name] = xy_pairs`. -/
def setModuleField (nsbm : NSBM) (module field_name : String)
    (xy_pairs : List (ℤ × ℚ)) : NSBM :=
  alistSet nsbm module (alistSet ((alistGet nsbm module).getD []) field_name xy_pairs)

/-- The inner loop over one chart's unpacked series: resolve each series
label to a field name and store the pairs under it (silently overwriting
any series already stored under that field name). -/
def addSeries (module chart_label : String) :
    NSBM → List (Option String × List (ℤ × ℚ)) → Except String NSBM
  | nsbm, [] => .ok nsbm
  | nsbm, (series_label, xy_pairs) :: rest =>
    match lookup_field_name chart_label series_label with
    | .error e => .error e
    | .ok field_name => addSeries module chart_label (setModuleField nsbm module field_name xy_pairs) rest

/-- The extraction loop of `parse_and_commit_record` (source lines 311-326):
for each chart of the batch, look up its label and time window, unpack its
series and store them per module and field name. -/
def extractCharts : List ChartJsonInput → NSBM → Except String NSBM
  | [], nsbm => .ok nsbm
  | cj :: rest, nsbm =>
    match (labelToFieldMap.map Prod.fst).get? cj.chart_num with
    | none => .error "IndexError: chart_num"
    | some chart_label =>
      match timeWindows.get? cj.time_window with
      | none => .error "IndexError: time_window"
      | some tw =>
        match unpack_chart_data cj.chart (tw.2 * 3600) with
        | .error e => .error e
        | .ok chart_data =>
          match addSeries cj.module chart_label nsbm chart_data with
          | .error e => .error e
          | .ok nsbm2 => extractCharts rest nsbm2

/-- The watermark filter of `parse_and_commit_record` (source line 340):
`not start_time_t or record_time_t > start_time_t`.  A stored watermark of
`0` is falsy in Python, exactly like `None`. -/
def record_passes (start_time_t : Option ℤ) (record_time_t : ℚ) : Bool :=
  match start_time_t with
  | none => true
  | some t => t = 0 || record_time_t > (t : ℚ)

/-- Source lines 335-343 for one module: aggregate its named series, convert
elapsed seconds to absolute time and keep the records past the watermark. -/
def moduleRecords (chart_start_time_t : ℚ) (start_time_t : Option ℤ)
    (named_series : List (String × List (ℤ × ℚ))) : Except String (List Record) :=
  match aggregate_series_by_time named_series with
  | .error e => .error e
  | .ok aggregated =>
    .ok (aggregated.filterMap fun p =>
      let record_time_t := chart_start_time_t + (p.1 : ℚ)
      if record_passes start_time_t record_time_t then
        some ⟨record_time_t, p.2⟩
      else none)

/-- The per-module record loop of `parse_and_commit_record`. -/
def buildModules (chart_start_time_t : ℚ) (start_time_t : Option ℤ) :
    NSBM → Except String (List (String × List Record))
  | [] => .ok []
  | (module, named_series) :: rest =>
    match moduleRecords chart_start_time_t start_time_t named_series with
    | .error e => .error e
    | .ok records =>
      match buildModules chart_start_time_t start_time_t rest with
      | .error e => .error e
      | .ok restRecords => .ok ((module, records) :: restRecords)

/-- Source lines 309-343: extraction, the same-time-window assertion, and
the record building with watermark filtering, for a non-empty batch. -/
def build_records_by_module (c0 : ChartJsonInput) (rest : List ChartJsonInput)
    (start_time_t : Option ℤ) (download_time_t : ℤ) :
    Except String (List (String × List Record)) :=
  match extractCharts (c0 :: rest) [] with
  | .error e => .error e
  | .ok nsbm =>
    if (c0 :: rest).all (fun cj => cj.time_window = c0.time_window) then
      match timeWindows.get? ((c0 :: rest).getLast (by simp)).time_window with
      | none => .error "IndexError: time_window"
      | some tw =>
        buildModules ((download_time_t : ℚ) - tw.2 * 3600) start_time_t nsbm
    else .error "AssertionError: mixed time windows"

/-- `reduce(lambda x, y: x + y, records_by_module.values(), [])`. -/
def joinRecords (records_by_module : List (String × List Record)) : List Record :=
  (records_by_module.map Prod.snd).flatten

/-- `parse_and_commit_record(...)` from the source, returning the final
value of its `records` variable.  An empty batch returns early (`None`,
falsy like `[]`).  On a dry run `records` is cleared.  Otherwise the send
loop `for (module, records) in records_by_module.iteritems()` rebinds
`records`, so the function returns the last module's record list. -/
def parse_and_commit_record (input_json : List ChartJsonInput)
    (start_time_t : Option ℤ) (download_time_t : ℤ) (dry_run : Bool) :
    Except String (List Record) :=
  match input_json with
  | [] => .ok []
  | c0 :: rest =>
    match build_records_by_module c0 rest start_time_t download_time_t with
    | .error e => .error e
    | .ok records_by_module =>
      if dry_run then .ok []
      else
        match records_by_module.getLast? with
        | some m => .ok m.2
        | none => .ok (joinRecords records_by_module)

/-- The records handed to `graphite_util.maybe_send_to_graphite`, across all
modules (the send loop of source lines 353-356; also the concatenation the
source computes on line 348). -/
def emitted_records (input_json : List ChartJsonInput)
    (start_time_t : Option ℤ) (download_time_t : ℤ) : Except String (List Record) :=
  match input_json with
  | [] => .ok []
  | c0 :: rest =>
    match build_records_by_module c0 rest start_time_t download_time_t with
    | .error e => .error e
    | .ok records_by_module => .ok (joinRecords records_by_module)

/-- `max(records, key=lambda r: r['utc_datetime'])`: the first record with
the latest timestamp. -/
def latest_record (r0 : Record) (rs : List Record) : Record :=
  rs.foldl (fun best r => if best.utc_time < r.utc_time then r else best) r0

/-- `main(...)` from the source, returning the pipeline result together
with the content of the watermark file after the cycle: the watermark is
written only after `parse_and_commit_record` returns normally with a
non-empty (truthy) record list, so an exception or an empty result leaves
the stored watermark untouched. -/
def dashboard_main (watermark : Option ℤ) (input_json : List ChartJsonInput)
    (utc_timestamp : ℤ) (dry_run : Bool) :
    Except String (List Record) × Option ℤ :=
  match parse_and_commit_record input_json watermark utc_timestamp dry_run with
  | .error e => (.error e, watermark)
  | .ok [] => (.ok [], watermark)
  | .ok (r :: rs) => (.ok (r :: rs), some (pyint (latest_record r rs).utc_time))

/-! ## Claim C3: watermark filtering -/

/-- C3, counterexample.  The claim states that for every stored watermark
`T` a record whose timestamp is not strictly greater than `T` is dropped.
For the stored watermark `T = 0` a record at exactly timestamp `0` is
nevertheless kept, because `not start_time_t` is true for the falsy
Python value `0` just as for `None`. -/
theorem record_passes_zero_watermark : record_passes (some 0) 0 = true := by decide

/-- C3, amended.  With no stored watermark every record passes the filter;
for every nonzero stored watermark `T`, a record passes the filter exactly
when its absolute timestamp is strictly greater than `T` (so a record at
`T` is dropped and a record at `T + 1` is kept); a stored watermark of `0`
is falsy in Python and disables filtering entirely. -/
theorem record_passes_spec :
    (∀ t : ℚ, record_passes none t = true) ∧
    (∀ (T : ℤ) (t : ℚ), T ≠ 0 →
      (record_passes (some T) t = true ↔ (T : ℚ) < t)) ∧
    (∀ t : ℚ, record_passes (some 0) t = true) := by
  refine ⟨fun t => rfl, fun T t hT => ?_, fun t => rfl⟩
  simp [record_passes, hT]

/-- C3, witness for `record_passes_spec`: watermark `5`, records at
timestamps `5` (dropped) and `6` (kept). -/
theorem record_passes_spec_witness :
    ((5 : ℤ) ≠ 0 ∧ record_passes (some 5) 5 = false ∧ record_passes (some 5) 6 = true) ∧
    (record_passes (some 5) 5 = true ↔ (5 : ℚ) < 5) ∧
    (record_passes (some 5) 6 = true ↔ (5 : ℚ) < 6) :=
  ⟨by decide, record_passes_spec.2.1 5 5 (by decide), record_passes_spec.2.1 5 6 (by decide)⟩

/-! ## Claim C5: no watermark update on failure -/

/-- C5.  If any step of the pipeline raises (extraction, resolution,
aggregation or filtering all surface as an `Except.error` of
`parse_and_commit_record`), the stored watermark after the cycle is the
one from before the cycle: `main` only writes the watermark after
`parse_and_commit_record` has returned normally. -/
theorem watermark_unchanged_on_failure (watermark : Option ℤ)
    (input_json : List ChartJsonInput) (utc_timestamp : ℤ) (dry_run : Bool)
    (e : String)
    (h : parse_and_commit_record input_json watermark utc_timestamp dry_run = .error e) :
    (dashboard_main watermark input_json utc_timestamp dry_run).2 = watermark := by
  simp [dashboard_main, h]

/-- C5, witness: a batch whose chart number is out of range makes the
extraction step raise, and the stored watermark (here `some 123`) is kept. -/
theorem watermark_unchanged_on_failure_witness :
    (parse_and_commit_record [⟨99, "m", 0, ⟨"e:A", "x,y", "0:|1:|300", none, [[0], [0]]⟩⟩]
        (some 123) 21600 false = .error "IndexError: chart_num") ∧
    (dashboard_main (some 123) [⟨99, "m", 0, ⟨"e:A", "x,y", "0:|1:|300", none, [[0], [0]]⟩⟩]
        21600 false).2 = some 123 :=
  ⟨by decide, watermark_unchanged_on_failure (some 123) _ 21600 false
    "IndexError: chart_num" (by decide)⟩

/-! ## Claim C8: significant-digit rounding -/

/-- C8.  `round_to_n_significant_digits` rounds to `n` significant figures,
not `n` decimal places: `123456` with `n = 4` becomes `1235 * 10^2`
(4 significant figures), and `0.00012345` with `n = 4` becomes
`1235 * 10^-7`, which is within half a last-place unit of the input, hence
a nearest representable 4-significant-figure value.  Every `n < 1` raises
`ValueError`, and an input of `0` maps to `0` for every valid `n`. -/
theorem round_to_n_significant_digits_spec :
    (∀ (x : ℚ) (n : ℤ), n < 1 →
      round_to_n_significant_digits x n =
        .error "ValueError: Number of significant digits must be >= 1") ∧
    (∀ n : ℤ, 1 ≤ n → round_to_n_significant_digits 0 n = .ok 0) ∧
    round_to_n_significant_digits 123456 4 = .ok (1235 * 10 ^ 2) ∧
    round_to_n_significant_digits (12345 / 10 ^ 8) 4 = .ok (1235 / 10 ^ 7) ∧
    |1235 / 10 ^ 7 - 12345 / 10 ^ 8| ≤ (1 : ℚ) / (2 * 10 ^ 7) := by
  refine ⟨fun x n hn => ?_, fun n hn => ?_, by decide, by decide, by decide⟩
  · simp [round_to_n_significant_digits, hn]
  · simp [round_to_n_significant_digits, round_sig_core, not_lt.mpr hn]

/-- C8, witness for `round_to_n_significant_digits_spec`: `n = 0` raises
and `0` maps to `0` at `n = 4`. -/
theorem round_to_n_significant_digits_spec_witness :
    ((0 : ℤ) < 1 ∧
      round_to_n_significant_digits 7 0 =
        .error "ValueError: Number of significant digits must be >= 1") ∧
    ((1 : ℤ) ≤ 4 ∧ round_to_n_significant_digits 0 4 = .ok 0) :=
  ⟨⟨by decide, round_to_n_significant_digits_spec.1 7 0 (by decide)⟩,
   ⟨by decide, round_to_n_significant_digits_spec.2.1 4 (by decide)⟩⟩

/-! ## Claim C4: watermark persistence across modules -/

/-- C4.  The claim (and the spec) say the persisted watermark is the
timestamp of the latest record across all modules' emitted records.  In
the code the loop `for (module, records) in records_by_module.iteritems()`
rebinds the `records` variable that `main` then passes to
`_write_time_t_of_latest_record`, so only the module iterated last
contributes.  Concretely: module `m1` emits a record at absolute time
`21600` and module `m2` one at time `0`; both are emitted (sent to
graphite), yet the persisted watermark is `0`, not `21600`. -/
theorem watermark_write_ignores_earlier_modules :
    (dashboard_main none
      [⟨2, "m1", 2, ⟨"e:A", "x,y", "0:|now|1:|300", none, [[4095], [4095]]⟩⟩,
       ⟨2, "m2", 2, ⟨"e:A", "x,y", "0:|now|1:|300", none, [[0], [0]]⟩⟩]
      21600 false).2 = some 0 ∧
    emitted_records
      [⟨2, "m1", 2, ⟨"e:A", "x,y", "0:|now|1:|300", none, [[4095], [4095]]⟩⟩,
       ⟨2, "m2", 2, ⟨"e:A", "x,y", "0:|now|1:|300", none, [[0], [0]]⟩⟩]
      none 21600 =
      .ok [⟨21600, [("milliseconds_per_dynamic_request", 300)]⟩,
           ⟨0, [("milliseconds_per_dynamic_request", 0)]⟩] := by
  constructor
  · decide
  · decide

/-! ## Claim C10: silent field-name collision across charts -/

/-- C10.  The charts `Summary` (index 0) and `Error Details` (index 4) both
map the series label `Client (4xx)` to the field name
`client_errors_per_second`.  A batch containing both charts for the same
module raises no error: the later chart's series replaces the earlier one
in the named series set, and the earlier chart's data point `(0, 0)` is
absent from the output. -/
theorem duplicate_field_name_overwrites_silently :
    extractCharts
      [⟨0, "default", 2, ⟨"e:A", "x,y", "0:|now|1:|300", some "Client (4xx)", [[0], [0]]⟩⟩,
       ⟨4, "default", 2, ⟨"e:A", "x,y", "0:|now|1:|300", some "Client (4xx)", [[4095], [4095]]⟩⟩]
      [] = .ok [("default", [("client_errors_per_second", [(21600, 300)])])] ∧
    parse_and_commit_record
      [⟨0, "default", 2, ⟨"e:A", "x,y", "0:|now|1:|300", some "Client (4xx)", [[0], [0]]⟩⟩,
       ⟨4, "default", 2, ⟨"e:A", "x,y", "0:|now|1:|300", some "Client (4xx)", [[4095], [4095]]⟩⟩]
      none 21600 false = .ok [⟨21600, [("client_errors_per_second", 300)]⟩] := by
  constructor
  · decide
  · decide

/-! ## Claim C9: axis-label parsing -/

/-- If some segment of the label string declares an axis index out of the
bounds of the axis list, the label loop raises, whatever state it is in
when it reaches that segment. -/
theorem axisLabelsLoop_error_of_bad_seg (numAxes : ℕ) (seg : String) (d : ℕ)
    (hcolon : endsColon seg = true) (hdigit : headDigitVal seg = some d)
    (hbound : numAxes ≤ d) :
    ∀ (segs : List String) (acc : List (List String)) (idx : ℕ),
      seg ∈ segs → ∃ e, axisLabelsLoop numAxes segs acc idx = .error e := by
  intro segs
  induction segs with
  | nil => intro acc idx h; cases h
  | cons s rest ih =>
    intro acc idx hmem
    rcases List.mem_cons.mp hmem with rfl | hmem'
    · refine ⟨"AssertionError: axis index out of range", ?_⟩
      simp [axisLabelsLoop, hcolon, hdigit, Nat.not_lt.mpr hbound]
    · by_cases hc : endsColon s = true
      · rcases hd : headDigitVal s with _ | d'
        · exact ⟨"ValueError: invalid literal for int()", by simp [axisLabelsLoop, hc, hd]⟩
        · by_cases hlt : d' < numAxes
          · obtain ⟨e, he⟩ := ih acc d' hmem'
            exact ⟨e, by simp [axisLabelsLoop, hc, hd, hlt, he]⟩
          · exact ⟨"AssertionError: axis index out of range",
              by simp [axisLabelsLoop, hc, hd, hlt]⟩
      · obtain ⟨e, he⟩ := ih (appendAt acc idx s) idx hmem'
        exact ⟨e, by simp [axisLabelsLoop, hc, he]⟩

/-- C9.  Axis-label parsing: `chxt=x,y` with `chxl=0:|a|b|1:|c|d|e` yields
`{x: [a, b], y: [c, d, e]}`; a segment ending in a colon whose leading
character is a digit switches the current axis (asserting the index is in
range), any other segment is appended to the current axis; and a declared
axis index outside the bounds of the axis list makes `get_axis_labels`
raise. -/
theorem get_axis_labels_spec :
    get_axis_labels "x,y" "0:|a|b|1:|c|d|e" =
      .ok [("x", ["a", "b"]), ("y", ["c", "d", "e"])] ∧
    (∀ (numAxes : ℕ) (rest : List String) (acc : List (List String)) (idx d : ℕ)
      (seg : String), endsColon seg = true → headDigitVal seg = some d →
      axisLabelsLoop numAxes (seg :: rest) acc idx =
        if d < numAxes then axisLabelsLoop numAxes rest acc d
        else .error "AssertionError: axis index out of range") ∧
    (∀ (numAxes : ℕ) (rest : List String) (acc : List (List String)) (idx : ℕ)
      (seg : String), endsColon seg = false →
      axisLabelsLoop numAxes (seg :: rest) acc idx =
        axisLabelsLoop numAxes rest (appendAt acc idx seg) idx) ∧
    (∀ (chxt chxl seg : String) (d : ℕ), seg ∈ splitOnChar '|' chxl →
      endsColon seg = true → headDigitVal seg = some d →
      (splitOnChar ',' chxt).length ≤ d →
      ∃ e, get_axis_labels chxt chxl = .error e) := by
  refine ⟨by decide, ?_, ?_, ?_⟩
  · intro numAxes rest acc idx d seg hc hd
    simp [axisLabelsLoop, hc, hd]
  · intro numAxes rest acc idx seg hc
    simp [axisLabelsLoop, hc]
  · intro chxt chxl seg d hmem hc hd hbound
    obtain ⟨e, he⟩ := axisLabelsLoop_error_of_bad_seg (splitOnChar ',' chxt).length
      seg d hc hd hbound (splitOnChar '|' chxl)
      ((splitOnChar ',' chxt).map fun _ => []) 0 hmem
    refine ⟨e, ?_⟩
    simp only [List.map_const'] at he
    simp [get_axis_labels, he]

/-- C9, witness for `get_axis_labels_spec`: the axis-switch and append
steps at concrete states, and the out-of-bounds axis declaration `5:`
against the two axes `x,y`. -/
theorem get_axis_labels_spec_witness :
    (endsColon "1:" = true ∧ headDigitVal "1:" = some 1 ∧
      axisLabelsLoop 2 ["1:", "c"] [["a"], []] 0 =
        if 1 < 2 then axisLabelsLoop 2 ["c"] [["a"], []] 1
        else .error "AssertionError: axis index out of range") ∧
    (endsColon "b" = false ∧
      axisLabelsLoop 2 ["b"] [["a"], []] 0 = axisLabelsLoop 2 [] (appendAt [["a"], []] 0 "b") 0) ∧
    ("5:" ∈ splitOnChar '|' "5:|a" ∧ endsColon "5:" = true ∧
      headDigitVal "5:" = some 5 ∧ (splitOnChar ',' "x,y").length ≤ 5 ∧
      ∃ e, get_axis_labels "x,y" "5:|a" = .error e) :=
  ⟨⟨by decide, by decide,
      get_axis_labels_spec.2.1 2 ["c"] [["a"], []] 0 1 "1:" (by decide) (by decide)⟩,
   ⟨by decide, get_axis_labels_spec.2.2.1 2 [] [["a"], []] 0 "b" (by decide)⟩,
   ⟨by decide, by decide, by decide, by decide,
      get_axis_labels_spec.2.2.2 "x,y" "5:|a" "5:" 5 (by decide) (by decide) (by decide)
        (by decide)⟩⟩

/-! ## Claim C7: mixed time-window batch -/

/-- C7.  A batch containing two chart descriptors whose time-window indices
differ makes `parse_and_commit_record` fail: whatever the extraction loop
does, the assertion that all elements share the first element's time
window fires before any record is aggregated or emitted, so the pipeline
never silently picks one of the two window durations. -/
theorem mixed_time_window_batch_fails (input_json : List ChartJsonInput)
    (start_time_t : Option ℤ) (download_time_t : ℤ) (dry_run : Bool)
    (i j : ℕ) (hi : i < input_json.length) (hj : j < input_json.length)
    (hne : (input_json.get ⟨i, hi⟩).time_window ≠ (input_json.get ⟨j, hj⟩).time_window) :
    ∃ e, parse_and_commit_record input_json start_time_t download_time_t dry_run = .error e := by
  match input_json, hi, hj, hne with
  | c0 :: rest, hi, hj, hne =>
    have hall : ((c0 :: rest).all fun cj => cj.time_window = c0.time_window) = false := by
      cases h : (c0 :: rest).all fun cj => cj.time_window = c0.time_window
      · rfl
      · exfalso
        have hmem := List.all_eq_true.mp h
        have h1 := hmem _ (List.get_mem (c0 :: rest) i hi)
        have h2 := hmem _ (List.get_mem (c0 :: rest) j hj)
        simp only [decide_eq_true_eq] at h1 h2
        exact hne (h1.trans h2.symm)
    unfold parse_and_commit_record build_records_by_module
    rcases hext : extractCharts (c0 :: rest) [] with e | nsbm
    · exact ⟨e, by simp only [hext]⟩
    · exact ⟨"AssertionError: mixed time windows", by simp only [hext, hall]; rfl⟩

/-- C7, witness for `mixed_time_window_batch_fails`: two otherwise valid
descriptors with time-window indices `2` and `3`. -/
theorem mixed_time_window_batch_fails_witness :
    (([⟨2, "m", 2, ⟨"e:A", "x,y", "0:|now|1:|300", none, [[0], [0]]⟩⟩,
       ⟨2, "m", 3, ⟨"e:A", "x,y", "0:|now|1:|300", none, [[0], [0]]⟩⟩] :
        List ChartJsonInput).get ⟨0, by decide⟩).time_window ≠
      (([⟨2, "m", 2, ⟨"e:A", "x,y", "0:|now|1:|300", none, [[0], [0]]⟩⟩,
         ⟨2, "m", 3, ⟨"e:A", "x,y", "0:|now|1:|300", none, [[0], [0]]⟩⟩] :
          List ChartJsonInput).get ⟨1, by decide⟩).time_window ∧
    ∃ e, parse_and_commit_record
      [⟨2, "m", 2, ⟨"e:A", "x,y", "0:|now|1:|300", none, [[0], [0]]⟩⟩,
       ⟨2, "m", 3, ⟨"e:A", "x,y", "0:|now|1:|300", none, [[0], [0]]⟩⟩]
      none 21600 false = .error e :=
  ⟨by decide, mixed_time_window_batch_fails _ none 21600 false 0 1 (by decide) (by decide)
    (by decide)⟩

/-! ## Aggregator lemmas (claims C2 and C6) -/

/-- A list of length at most one containing `a` is exactly `[a]`. -/
theorem eq_singleton_of_mem_of_length_le_one {α : Type} {a : α} {l : List α}
    (hmem : a ∈ l) (hlen : l.length ≤ 1) : l = [a] := by
  cases l with
  | nil => cases hmem
  | cons b t =>
    cases t with
    | nil => rw [List.mem_singleton.mp hmem]
    | cons c t2 => simp at hlen

/-- A series whose x values are distinct matches a given x value at most
once. -/
theorem filter_eq_x_length_le_one {ps : List (ℤ × ℚ)} {x : ℤ}
    (h : (ps.map Prod.fst).Nodup) : (ps.filter fun p => p.1 = x).length ≤ 1 := by
  induction ps with
  | nil => simp
  | cons hd tl ih =>
    simp only [List.map_cons, List.nodup_cons] at h
    by_cases hx : hd.1 = x
    · have htl : tl.filter (fun p => decide (p.1 = x)) = [] := by
        rw [List.filter_eq_nil_iff]
        intro p hp
        simp only [decide_eq_true_eq]
        intro hpx
        have hmem : p.1 ∈ tl.map Prod.fst := List.mem_map.mpr ⟨p, hp, rfl⟩
        rw [hpx, ← hx] at hmem
        exact h.1 hmem
      rw [List.filter_cons, if_pos (by simp [hx]), htl]
      simp
    · rw [List.filter_cons, if_neg (by simp [hx])]
      exact ih h.2

/-- A series whose x values repeat matches some x value at least twice. -/
theorem exists_dup_filter {ps : List (ℤ × ℚ)}
    (h : ¬ (ps.map Prod.fst).Nodup) : ∃ x, 2 ≤ (ps.filter fun p => p.1 = x).length := by
  induction ps with
  | nil => simp at h
  | cons hd tl ih =>
    simp only [List.map_cons, List.nodup_cons] at h
    by_cases hnd : (tl.map Prod.fst).Nodup
    · have hmem : hd.1 ∈ tl.map Prod.fst := by
        by_contra hmem
        exact h ⟨hmem, hnd⟩
      obtain ⟨q, hq, hq1⟩ := List.mem_map.mp hmem
      refine ⟨hd.1, ?_⟩
      have hqf : q ∈ tl.filter (fun p => decide (p.1 = hd.1)) :=
        List.mem_filter.mpr ⟨hq, by simp [hq1]⟩
      have hpos := List.length_pos_of_mem hqf
      rw [List.filter_cons, if_pos (by simp)]
      simp only [List.length_cons]
      omega
    · obtain ⟨x, hx⟩ := ih hnd
      refine ⟨x, le_trans hx ?_⟩
      rw [List.filter_cons]
      by_cases hhd : hd.1 = x
      · rw [if_pos (by simp [hhd])]
        simp only [List.length_cons]
        exact Nat.le_succ _
      · rw [if_neg (by simp [hhd])]

/-- The first element of a singleton filter result is what `find?` finds. -/
theorem find?_eq_of_filter_singleton {α : Type} {p : α → Bool} {l : List α} {a : α}
    (h : l.filter p = [a]) : l.find? p = some a := by
  induction l with
  | nil => simp at h
  | cons hd tl ih =>
    rw [List.filter_cons] at h
    by_cases hp : p hd = true
    · rw [if_pos hp] at h
      injection h with h1 h2
      rw [List.find?_cons_of_pos _ hp, h1]
    · rw [if_neg hp] at h
      rw [List.find?_cons_of_neg _ hp]
      exact ih h

/-- The record the aggregator builds at a given x value, in closed form:
for each named series, its unique matching data point, if any. -/
def okRecord (x : ℤ) (ns : List (String × List (ℤ × ℚ))) : List (String × ℚ) :=
  ns.filterMap fun p => (p.2.find? fun q => q.1 = x).map fun q => (p.1, q.2)

/-- When every series matches the x value at most once, `build_record`
succeeds and produces `okRecord`. -/
theorem build_record_ok (x : ℤ) (ns : List (String × List (ℤ × ℚ)))
    (h : ∀ p ∈ ns, (p.2.filter fun q => q.1 = x).length ≤ 1) :
    build_record x ns = .ok (okRecord x ns) := by
  induction ns with
  | nil => rfl
  | cons hd tl ih =>
    obtain ⟨name, ps⟩ := hd
    have hhd := h (name, ps) (List.mem_cons_self _ _)
    have htl := ih fun p hp => h p (List.mem_cons_of_mem _ hp)
    cases hm : ps.filter (fun q => decide (q.1 = x)) with
    | nil =>
      have hfind : ps.find? (fun q => decide (q.1 = x)) = none := by
        rw [List.find?_eq_none]
        exact List.filter_eq_nil_iff.mp hm
      simp [build_record, okRecord, List.filterMap_cons, hm, hfind, htl]
    | cons q qt =>
      have hq : qt = [] := by
        rw [hm] at hhd
        simpa using hhd
      subst hq
      have hfind : ps.find? (fun q => decide (q.1 = x)) = some q :=
        find?_eq_of_filter_singleton hm
      simp [build_record, okRecord, List.filterMap_cons, hm, hfind, htl]

/-- `aggregateLoop` on any x list, when every series has distinct x
values. -/
theorem aggregateLoop_ok_of (ns : List (String × List (ℤ × ℚ)))
    (hnd : ∀ p ∈ ns, (p.2.map Prod.fst).Nodup) (xs : List ℤ) :
    aggregateLoop ns xs = .ok (xs.map fun x => (x, okRecord x ns)) := by
  induction xs with
  | nil => rfl
  | cons x rest ih =>
    have hb := build_record_ok x ns fun p hp => filter_eq_x_length_le_one (hnd p hp)
    simp [aggregateLoop, hb, ih]

/-- Membership in `okRecord`: exactly the series with a data point at the
given x value, mapped to that point's y value. -/
theorem mem_okRecord {x : ℤ} {ns : List (String × List (ℤ × ℚ))}
    (hnd : ∀ p ∈ ns, (p.2.map Prod.fst).Nodup) (name : String) (y : ℚ) :
    (name, y) ∈ okRecord x ns ↔ ∃ ps, (name, ps) ∈ ns ∧ (x, y) ∈ ps := by
  constructor
  · intro hmem
    obtain ⟨p, hp, hf⟩ := List.mem_filterMap.mp hmem
    rcases hfind : p.2.find? (fun q => decide (q.1 = x)) with _ | q
    · rw [hfind] at hf; cases hf
    · rw [hfind] at hf
      simp only [Option.map_some'] at hf
      have hqx : q.1 = x := by simpa using List.find?_some hfind
      have hq2 : q ∈ p.2 := List.mem_of_find?_eq_some hfind
      injection hf with hpair
      injection hpair with h1 h2
      refine ⟨p.2, ?_, ?_⟩
      · rw [← h1]
        simpa using hp
      · have hqxy : q = (x, y) := by
          obtain ⟨qa, qb⟩ := q
          simp only at hqx h2
          rw [hqx, h2]
        rw [← hqxy]
        exact hq2
  · rintro ⟨ps, hmem, hxy⟩
    apply List.mem_filterMap.mpr
    refine ⟨(name, ps), hmem, ?_⟩
    have hle := filter_eq_x_length_le_one (x := x) (hnd _ hmem)
    have hmf : (x, y) ∈ ps.filter (fun q => decide (q.1 = x)) :=
      List.mem_filter.mpr ⟨hxy, by simp⟩
    rw [find?_eq_of_filter_singleton (eq_singleton_of_mem_of_length_le_one hmf hle)]
    rfl

/-! ## Claim C2: aggregation is a union over distinct x values -/

/-- C2.  For a finite map from series name to data-point list in which no
series repeats an x value, the aggregator succeeds and yields exactly one
record per distinct x value appearing in any series, in strictly ascending
x order; each record contains exactly the names of the series with a point
at that x value, mapped to that point's y value, and omits every other
series. -/
theorem aggregate_series_by_time_union (ns : List (String × List (ℤ × ℚ)))
    (hns : (ns.map Prod.fst).Nodup)
    (hnd : ∀ p ∈ ns, (p.2.map Prod.fst).Nodup) :
    ∃ recs, aggregate_series_by_time ns = .ok recs ∧
      (recs.map Prod.fst).Sorted (· < ·) ∧
      (∀ x : ℤ, x ∈ recs.map Prod.fst ↔ ∃ p ∈ ns, x ∈ p.2.map Prod.fst) ∧
      ∀ x record, (x, record) ∈ recs →
        ∀ name y, ((name, y) ∈ record ↔ ∃ ps, (name, ps) ∈ ns ∧ (x, y) ∈ ps) := by
  have hpair : ∀ l : List ℤ, ((l.map fun x => (x, okRecord x ns)).map Prod.fst) = l := by
    intro l
    induction l with
    | nil => rfl
    | cons a t iht => simp only [List.map_cons, iht]
  have hmfst : (((sorted_x_values ns).map fun x => (x, okRecord x ns)).map Prod.fst) =
      sorted_x_values ns := hpair _
  refine ⟨_, aggregateLoop_ok_of ns hnd (sorted_x_values ns), ?_, ?_, ?_⟩
  · rw [hmfst]
    have hsorted : (sorted_x_values ns).Sorted (· ≤ ·) := List.sorted_insertionSort _ _
    have hnodup : (sorted_x_values ns).Nodup := by
      have hperm := List.perm_insertionSort (· ≤ ·)
        (((ns.map fun p => p.2.map Prod.fst).flatten).dedup)
      exact hperm.nodup_iff.mpr (List.nodup_dedup _)
    exact hsorted.lt_of_le hnodup
  · intro x
    rw [hmfst]
    simp only [sorted_x_values, List.mem_insertionSort, List.mem_dedup, List.mem_flatten]
    constructor
    · rintro ⟨l, hl, hx⟩
      obtain ⟨p, hp, rfl⟩ := List.mem_map.mp hl
      exact ⟨p, hp, hx⟩
    · rintro ⟨p, hp, hx⟩
      exact ⟨p.2.map Prod.fst, List.mem_map.mpr ⟨p, hp, rfl⟩, hx⟩
  · intro x record hmem name y
    obtain ⟨x2, hx2, heq⟩ := List.mem_map.mp hmem
    injection heq with e1 e2
    subst e1
    subst e2
    exact mem_okRecord hnd name y

/-- C2, witness for `aggregate_series_by_time_union`: the spec's example,
series `A = [(10, 1), (20, 2)]` and `B = [(10, 9)]`. -/
theorem aggregate_series_by_time_union_witness :
    ((([("A", [((10 : ℤ), (1 : ℚ)), (20, 2)]), ("B", [(10, 9)])].map Prod.fst).Nodup) ∧
      (∀ p ∈ [("A", [((10 : ℤ), (1 : ℚ)), (20, 2)]), ("B", [(10, 9)])],
        (p.2.map Prod.fst).Nodup)) ∧
    (∃ recs, aggregate_series_by_time [("A", [((10 : ℤ), (1 : ℚ)), (20, 2)]), ("B", [(10, 9)])] =
        .ok recs ∧
      (recs.map Prod.fst).Sorted (· < ·) ∧
      (∀ x : ℤ, x ∈ recs.map Prod.fst ↔
        ∃ p ∈ [("A", [((10 : ℤ), (1 : ℚ)), (20, 2)]), ("B", [(10, 9)])], x ∈ p.2.map Prod.fst) ∧
      ∀ x record, (x, record) ∈ recs →
        ∀ name y, ((name, y) ∈ record ↔
          ∃ ps, (name, ps) ∈ [("A", [((10 : ℤ), (1 : ℚ)), (20, 2)]), ("B", [(10, 9)])] ∧
            (x, y) ∈ ps)) :=
  ⟨⟨by decide, by decide⟩,
   aggregate_series_by_time_union _ (by decide) (by decide)⟩

/-! ## Claim C6: duplicate x value within a series -/

/-- When some series of the set matches the given x value at least twice,
`build_record` at that x value raises. -/
theorem build_record_error_of_dup (x : ℤ) (ns : List (String × List (ℤ × ℚ)))
    (name : String) (ps : List (ℤ × ℚ)) (hmem : (name, ps) ∈ ns)
    (h2 : 2 ≤ (ps.filter fun p => p.1 = x).length) :
    ∃ e, build_record x ns = .error e := by
  induction ns with
  | nil => cases hmem
  | cons hd tl ih =>
    obtain ⟨n0, ps0⟩ := hd
    rcases List.mem_cons.mp hmem with heq | hmem'
    · injection heq with e1 e2
      subst e1
      subst e2
      have hgt : ¬ (ps.filter fun p => decide (p.1 = x)).length ≤ 1 := by omega
      exact ⟨"AssertionError: duplicate data points", by simp [build_record, hgt]⟩
    · obtain ⟨e, he⟩ := ih hmem'
      by_cases hle : (ps0.filter fun p => decide (p.1 = x)).length ≤ 1
      · cases hm : ps0.filter (fun p => decide (p.1 = x)) with
        | nil => exact ⟨e, by simp [build_record, hle, hm, he]⟩
        | cons q qt =>
          have hq : qt = [] := by
            rw [hm] at hle
            simpa using hle
          subst hq
          exact ⟨e, by simp [build_record, hle, hm, he]⟩
      · exact ⟨"AssertionError: duplicate data points", by simp [build_record, hle]⟩

/-- An erroring `build_record` at any listed x value makes the whole
aggregation loop raise. -/
theorem aggregateLoop_error_of_mem (ns : List (String × List (ℤ × ℚ))) (x : ℤ)
    (xs : List ℤ) (hx : x ∈ xs) (h : ∃ e, build_record x ns = .error e) :
    ∃ e, aggregateLoop ns xs = .error e := by
  induction xs with
  | nil => cases hx
  | cons x0 rest ih =>
    rcases List.mem_cons.mp hx with rfl | hx'
    · obtain ⟨e, he⟩ := h
      exact ⟨e, by simp [aggregateLoop, he]⟩
    · rcases hb : build_record x0 ns with e0 | r0
      · exact ⟨e0, by simp [aggregateLoop, hb]⟩
      · obtain ⟨e, he⟩ := ih hx'
        exact ⟨e, by simp [aggregateLoop, hb, he]⟩

/-- C6.  A series containing two data points with the same elapsed-seconds
value makes the aggregator raise (the assertion on the matched pairs),
rather than silently picking one of the two values. -/
theorem aggregate_duplicate_timestamp_errors (ns : List (String × List (ℤ × ℚ)))
    (name : String) (ps : List (ℤ × ℚ)) (hmem : (name, ps) ∈ ns)
    (hdup : ¬ (ps.map Prod.fst).Nodup) :
    ∃ e, aggregate_series_by_time ns = .error e := by
  obtain ⟨x, hx⟩ := exists_dup_filter hdup
  have hxs : x ∈ sorted_x_values ns := by
    have hpos : 0 < (ps.filter fun p => decide (p.1 = x)).length := by omega
    obtain ⟨q, hq⟩ := List.exists_mem_of_length_pos hpos
    obtain ⟨hq2, hqx⟩ := List.mem_filter.mp hq
    simp only [decide_eq_true_eq] at hqx
    simp only [sorted_x_values, List.mem_insertionSort, List.mem_dedup, List.mem_flatten]
    exact ⟨ps.map Prod.fst, List.mem_map.mpr ⟨(name, ps), hmem, rfl⟩,
      List.mem_map.mpr ⟨q, hq2, hqx⟩⟩
  exact aggregateLoop_error_of_mem ns x _ hxs (build_record_error_of_dup x ns name ps hmem hx)

/-- C6, witness for `aggregate_duplicate_timestamp_errors`: the spec's
example series `[(10, 1.0), (10, 2.0)]`. -/
theorem aggregate_duplicate_timestamp_errors_witness :
    (("s", [((10 : ℤ), (1 : ℚ)), (10, 2)]) ∈ [("s", [((10 : ℤ), (1 : ℚ)), (10, 2)])] ∧
      ¬ (([((10 : ℤ), (1 : ℚ)), (10, 2)].map Prod.fst).Nodup)) ∧
    ∃ e, aggregate_series_by_time [("s", [((10 : ℤ), (1 : ℚ)), (10, 2)])] = .error e :=
  ⟨⟨by decide, by decide⟩,
   aggregate_duplicate_timestamp_errors _ "s" [(10, 1), (10, 2)] (by decide) (by decide)⟩

/-! ## Claim C1: token decoding in the extractor -/

/-- C1, counterexample.  The claim states the x value is decoded to
`t/4095 * w` rounded to the nearest second.  For `t = 2` and `w = 21600`,
`t/4095 * w ≈ 10.549`: rounding to the nearest second gives `11`, but the
extractor truncates with `int()` and yields `10`. -/
theorem decode_x_not_rounded_to_nearest :
    decode_x 2 21600 = 10 ∧ round ((2 : ℚ) / 4095 * 21600) = 11 ∧
      decode_x 2 21600 ≠ round ((2 : ℚ) / 4095 * 21600) := by decide

/-- C1, amended.  For every chart in extended format with `chxt=x,y`, a
single unlabeled series, and a y-axis whose last label reads `m`, the
extractor decodes each x token `t` to `t/4095 * w` truncated to a whole
second (the floor, not the nearest second) and each y token `t` to
`t/4095 * m` rounded to 4 significant digits; a token of `0` decodes to
`0` on both axes and the y token `4095` decodes to `m` up to the
significant-digit rounding step. -/
theorem unpack_chart_data_decodes (chd chxl : String) (xs ys : List ℕ) (w m : ℚ)
    (axls : List (String × List String)) (ylabs : List String) (ml : String)
    (h1 : startsWithE chd = true)
    (h2 : get_axis_labels "x,y" chxl = .ok axls)
    (h3 : alistGet axls "y" = some ylabs)
    (h4 : ylabs.getLast? = some ml)
    (h5 : parse_float ml = .ok m)
    (hw : 0 < w) (hm : 0 < m) :
    unpack_chart_data ⟨chd, "x,y", chxl, none, [xs, ys]⟩ w =
      .ok [(none, (xs.map fun t => decode_x t w).zip (ys.map fun t => decode_y t m))] ∧
    (∀ t : ℕ, decode_x t w = ⌊(t : ℚ) / 4095 * w⌋) ∧
    (∀ t : ℕ, decode_y t m = round_sig_core ((t : ℚ) / 4095 * m) 4) ∧
    (decode_x 0 w = 0 ∧ decode_y 0 m = 0) ∧
    decode_y 4095 m = round_sig_core m 4 := by
  refine ⟨?_, fun t => ?_, fun t => rfl, ⟨?_, ?_⟩, ?_⟩
  · simp [unpack_chart_data, h1, h2, h3, h4, h5, pairUp]
  · have hnn : (0 : ℚ) ≤ (t : ℚ) / 4095 * w := by positivity
    simp [decode_x, pyint, hnn]
  · norm_num [decode_x, pyint]
  · norm_num [decode_y, round_sig_core]
  · norm_num [decode_y]

/-- C1, witness for `unpack_chart_data_decodes`: a 6-hour chart
(`w = 21600`) with y-axis maximum `300` and tokens `[0, 4095]`. -/
theorem unpack_chart_data_decodes_witness :
    (startsWithE "e:AB" = true ∧
      get_axis_labels "x,y" "0:|now|1:|300" = .ok [("x", ["now"]), ("y", ["300"])] ∧
      alistGet [("x", ["now"]), ("y", ["300"])] "y" = some ["300"] ∧
      (["300"] : List String).getLast? = some "300" ∧
      parse_float "300" = .ok 300 ∧ (0 : ℚ) < 21600 ∧ (0 : ℚ) < 300) ∧
    (unpack_chart_data ⟨"e:AB", "x,y", "0:|now|1:|300", none, [[0, 4095], [0, 4095]]⟩ 21600 =
      .ok [(none, ([0, 4095].map fun t => decode_x t 21600).zip
        ([0, 4095].map fun t => decode_y t 300))] ∧
      (∀ t : ℕ, decode_x t 21600 = ⌊(t : ℚ) / 4095 * 21600⌋) ∧
      (∀ t : ℕ, decode_y t 300 = round_sig_core ((t : ℚ) / 4095 * 300) 4) ∧
      (decode_x 0 21600 = 0 ∧ decode_y 0 300 = 0) ∧
      decode_y 4095 300 = round_sig_core 300 4) :=
  ⟨⟨by decide, by decide, by decide, by decide, by decide, by decide, by decide⟩,
   unpack_chart_data_decodes "e:AB" "0:|now|1:|300" [0, 4095] [0, 4095] 21600 300
     [("x", ["now"]), ("y", ["300"])] ["300"] "300"
     (by decide) (by decide) (by decide) (by decide) (by decide) (by decide) (by decide)⟩

end DashboardReport
